import Mathlib

/-!
Verification of the prompt-composition and deferred-dispatch subsystem
(TUI prompt component, source file part_004).

The development shallowly embeds two cooperating pieces of the source:

1. The composition/resolution side (resolvePromptInput, queuedPreview):
   text buffers are modeled as List Char, JS string slicing as List.take
   and List.drop (both index by code units / characters).

2. The per-conversation queue machine (queuedPrompts, queuedEditID,
   queuedCursor, queueGate, sendingQueuedPrompt signals together with the
   createEffect reactive blocks, submit, queueAtEndOfLoop, editQueued and
   the session.interrupt command): modeled as a state record plus a total
   event-application function.  The host is single threaded, so every
   reactive tick and every callback is one atomic event.  The field
   inFlight is a ghost counter of outstanding sendPrompt promises issued
   by the queued-dispatch effect; it is incremented exactly where the
   source calls sendPrompt and decremented exactly where the promise
   settles (catch/finally).
-/

namespace OpencodePrompt

/-- Dispatch gate states, source line 506:
    "open" | "paused" | "wait_busy" | "wait_idle".
    The source literal "open" is a Lean keyword, hence the name open'. -/
inductive Gate where
  | open'
  | paused
  | wait_busy
  | wait_idle
deriving DecidableEq, Repr

/-- Conversation status as consumed from sync.data.session_status
    (source line 99); the dispatcher only compares against "idle". -/
inductive AgentStatus where
  | idle
  | running
  | retrying
deriving DecidableEq, Repr

/-- Composer mode, source line 477: "normal" | "shell". -/
inductive Mode where
  | normal
  | shell
deriving DecidableEq, Repr

/-- Prompt part as used by the claims: the resolution walk (source lines
    946-967) only distinguishes parts of type "text" (carrying the stored
    full text) from the rest; file and agent parts carry opaque payloads. -/
inductive PPart where
  | text (full : List Char)
  | file (payload : String)
  | agent (payload : String)
deriving DecidableEq, Repr

/-- Whether a part has type "text" (the TextExpansion kind). -/
def PPart.isText : PPart → Bool
  | .text _ => true
  | _ => false

/-- QueuedPrompt, source lines 492-500. -/
structure QueuedPrompt where
  id : String
  sessionID : String
  inputText : List Char
  parts : List PPart
  agent : String
  model : String × String
  variant : Option String
deriving DecidableEq, Repr

/-- The reactive state of the prompt component that the queue claims are
    about: the signals declared at source lines 475-506 plus the props
    consulted by the handlers, plus the ghost counter inFlight. -/
structure PromptState where
  sessionID : Option String
  disabled : Bool
  autocompleteVisible : Bool
  inputFocused : Bool
  mode : Mode
  interrupt : Nat
  status : AgentStatus
  queuedPrompts : List QueuedPrompt
  sendingQueuedPrompt : Bool
  queuedEditID : Option String
  queuedCursor : Option Nat
  queueGate : Gate
  inFlight : Nat
deriving DecidableEq, Repr

/-- queuedPromptsForSession memo, source lines 508-512. -/
def queuedForSession (s : PromptState) : List QueuedPrompt :=
  match s.sessionID with
  | none => []
  | some sid => s.queuedPrompts.filter (fun item => item.sessionID == sid)

/-- queuedPromptsForSessionNewest memo, source line 513. -/
def queuedForSessionNewest (s : PromptState) : List QueuedPrompt :=
  (queuedForSession s).reverse

/-- editingQueuedPrompt memo, source lines 514-518. -/
def editingTarget (s : PromptState) : Option QueuedPrompt :=
  match s.queuedEditID with
  | none => none
  | some id => (queuedForSession s).find? (fun item => item.id == id)

/-- The list.findIndex plus splice removal used by the queued dispatch
    effect, source lines 1112-1116: remove the first entry whose id
    matches, leave the list unchanged when none matches. -/
def removeFirstById : List QueuedPrompt → String → List QueuedPrompt
  | [], _ => []
  | x :: xs, id => if x.id == id then xs else x :: removeFirstById xs id

/-- The in-place update of a queued message performed by the
    queuedEditing branch of submit, source lines 1180-1190: map over the
    list replacing text and parts of the entry with the matching id,
    keeping position (hence insertion order) intact. -/
def editInPlace (q : List QueuedPrompt) (id : String) (newText : List Char)
    (newParts : List PPart) : List QueuedPrompt :=
  q.map (fun item =>
    if item.id == id then { item with inputText := newText, parts := newParts } else item)

/-- Guard evaluation of the queued-dispatch effect, source lines
    1103-1109: returns the queue head that will be sent, or none when any
    guard blocks. -/
def dispatchSelect (s : PromptState) : Option QueuedPrompt :=
  if s.queueGate ≠ Gate.open' then none
  else if s.sendingQueuedPrompt then none
  else if s.queuedEditID.isSome then none
  else if s.status ≠ AgentStatus.idle then none
  else (queuedForSession s).head?

/-- One run of the queued-dispatch effect, source lines 1103-1124: when
    the guards pass, synchronously set the single-flight flag, remove the
    head from the queue, and issue the send (ghost counter inFlight). -/
def dispatchStep (s : PromptState) : PromptState :=
  match dispatchSelect s with
  | none => s
  | some next =>
    { s with sendingQueuedPrompt := true,
             queuedPrompts := removeFirstById s.queuedPrompts next.id,
             inFlight := s.inFlight + 1 }

/-- Settlement of a dispatched sendPrompt promise, source lines
    1125-1134: on rejection only a toast is shown (catch), and in both
    cases the finally block clears the single-flight flag.  Nothing else
    of the state is touched.  The event can only fire when a send is
    outstanding (inFlight positive). -/
def settleStep (s : PromptState) (_ok : Bool) : PromptState :=
  if s.inFlight = 0 then s
  else { s with inFlight := s.inFlight - 1, sendingQueuedPrompt := false }

/-- The gate-observation effect, source lines 1090-1101. -/
def gateStep (s : PromptState) : PromptState :=
  match s.queueGate with
  | Gate.open' => s
  | Gate.paused => s
  | Gate.wait_busy =>
    if s.status = AgentStatus.idle then s else { s with queueGate := Gate.wait_idle }
  | Gate.wait_idle =>
    if s.status ≠ AgentStatus.idle then s else { s with queueGate := Gate.open' }

/-- The editing-id cleanup effect, source lines 1082-1088: when the
    currently edited id is no longer present in the session queue, clear
    the editing id and the cursor. -/
def cleanupStep (s : PromptState) : PromptState :=
  match s.queuedEditID with
  | none => s
  | some id =>
    if (queuedForSession s).any (fun item => item.id == id) then s
    else { s with queuedEditID := none, queuedCursor := none }

/-- JS whitespace class as used by the regex and by String.prototype.trim
    in queuedPreview and the trim calls of submit and queueAtEndOfLoop;
    the principal members suffice (space, tab, line feed, carriage return,
    vertical tab, form feed, no-break space, line and paragraph
    separators, BOM). -/
def jsWS (c : Char) : Bool :=
  c = ' ' || c = '\t' || c = '\n' || c = '\r' || c = Char.ofNat 11 || c = Char.ofNat 12 ||
  c = Char.ofNat 0xA0 || c = Char.ofNat 0x2028 || c = Char.ofNat 0x2029 || c = Char.ofNat 0xFEFF

/-- Helper for the regex replace in queuedPreview: the flag records that
    we are inside a whitespace run whose single replacement space was
    already emitted. -/
def collapseAux : Bool → List Char → List Char
  | _, [] => []
  | inRun, c :: cs =>
    if jsWS c then
      if inRun then collapseAux true cs else ' ' :: collapseAux true cs
    else c :: collapseAux false cs

/-- inputText.replace of every maximal whitespace run by one space,
    source line 1138. -/
def collapseWS (l : List Char) : List Char :=
  collapseAux false l

/-- String.prototype.trim: strip leading and trailing whitespace. -/
def trimWS (l : List Char) : List Char :=
  (((l.dropWhile jsWS).reverse).dropWhile jsWS).reverse

/-- The one-line whitespace-normalized form computed by queuedPreview,
    source line 1138. -/
def normalizeWS (l : List Char) : List Char :=
  trimWS (collapseWS l)

/-- queuedPreview, source lines 1137-1141. -/
def queuedPreview (inputText : List Char) : List Char :=
  let oneLine := normalizeWS inputText
  if oneLine.length ≤ 80 then oneLine
  else oneLine.take 77 ++ ('.' :: '.' :: '.' :: [])

/-- The cursor arithmetic of editQueued, source lines 1007-1014, over a
    list of the given length: unselected starts at index 0 for direction
    -1 and at the last index for direction 1; otherwise the index moves
    by the direction and wraps cyclically. -/
def nextCursor (len : Nat) (current : Option Nat) (d : Int) : Nat :=
  match current with
  | none => if d = -1 then 0 else len - 1
  | some c =>
    let idx : Int := (c : Int) + d
    if idx < 0 then len - 1
    else if (len : Int) ≤ idx then 0
    else idx.toNat

/-- editQueued, source lines 999-1028, restricted to the modeled state:
    guards, cursor update and selection of the editing id.  Loading the
    selected entry into the live composition buffer is a rendering
    concern outside the modeled state. -/
def navStep (s : PromptState) (d : Int) : PromptState :=
  if s.disabled then s
  else if s.sessionID.isNone then s
  else if s.mode ≠ Mode.normal then s
  else
    let list := queuedForSessionNewest s
    if list.length = 0 then s
    else
      let next := nextCursor list.length s.queuedCursor d
      match list.get? next with
      | none => s
      | some target => { s with queuedCursor := some next, queuedEditID := some target.id }

/-- Whether the trimmed raw input is one of the exit commands handled at
    source line 1154. -/
def isExitCommand (t : List Char) : Bool :=
  t = "exit".toList || t = "quit".toList || t = ":q".toList

/-- Whether the trimmed raw input starts with one of the local dialog
    commands handled at source lines 1158-1172 (and exempted from the
    autocomplete guard at lines 1146-1152). -/
def isLocalDialog (t : List Char) : Bool :=
  "/usage".toList.isPrefixOf t || "/codexwho".toList.isPrefixOf t ||
  "/codexswap".toList.isPrefixOf t

/-- submit, source lines 1143-1249, restricted to the modeled state.
    raw is store.prompt.input; resolvedText and resolvedParts are the
    payload computed by resolvePromptInput; hasModel reflects
    local.model.current().  The slash-command and shell branches after
    line 1224 touch none of the modeled fields beyond what is shown
    (clearing the prompt buffer and the shell mode reset). -/
def submitStep (s : PromptState) (raw resolvedText : List Char)
    (resolvedParts : List PPart) (hasModel : Bool) : PromptState :=
  if s.disabled then s
  else if s.autocompleteVisible && !(isLocalDialog (trimWS raw)) then s
  else if raw = [] then s
  else if isExitCommand (trimWS raw) then s
  else if isLocalDialog (trimWS raw) then s
  else
    match editingTarget s with
    | some target =>
      { s with
        queuedPrompts := editInPlace s.queuedPrompts target.id resolvedText resolvedParts,
        queuedCursor := none, queuedEditID := none }
    | none =>
      if !hasModel then s
      else
        let s1 := if s.queueGate = Gate.paused then { s with queueGate := Gate.wait_busy } else s
        if s1.mode = Mode.shell then { s1 with mode := Mode.normal } else s1

/-- queueAtEndOfLoop, source lines 1030-1080.  freshId models
    Identifier.ascending; agentName, model and variant are read from the
    local context; raw is store.prompt.input and the resolved payload is
    what resolvePromptInput returns for the current composition. -/
def queueStep (s : PromptState) (freshId : String) (raw resolvedText : List Char)
    (resolvedParts : List PPart) (hasModel : Bool) (agentName : String)
    (model : String × String) (variant : Option String) : PromptState :=
  if s.disabled then s
  else if s.autocompleteVisible then s
  else
    match s.sessionID with
    | none => submitStep s raw resolvedText resolvedParts hasModel
    | some sid =>
      if s.status = AgentStatus.idle || s.mode ≠ Mode.normal then
        submitStep s raw resolvedText resolvedParts hasModel
      else if trimWS raw = [] || (trimWS raw).head? = some '/' then
        submitStep s raw resolvedText resolvedParts hasModel
      else if !hasModel then s
      else
        { s with
          queuedPrompts := s.queuedPrompts ++
            [{ id := freshId, sessionID := sid, inputText := resolvedText,
               parts := resolvedParts, agent := agentName, model := model,
               variant := variant }],
          queuedCursor := none, queuedEditID := none }

/-- The session.interrupt command, source lines 594-626.  The command is
    enabled only while the status is not idle; the body escalates a
    counter and past the confirmation threshold aborts the session and
    pauses the gate. -/
def interruptStep (s : PromptState) : PromptState :=
  if s.status = AgentStatus.idle then s
  else if s.autocompleteVisible then s
  else if !s.inputFocused then s
  else if s.mode = Mode.shell then { s with mode := Mode.normal }
  else if s.sessionID.isNone then s
  else
    let s1 := { s with interrupt := s.interrupt + 1 }
    if 2 ≤ s1.interrupt then { s1 with queueGate := Gate.paused, interrupt := 0 }
    else s1

/-- The 5 second auto-reset of the escalation counter, source lines
    613-615. -/
def interruptTimeoutStep (s : PromptState) : PromptState :=
  { s with interrupt := 0 }

/-- The conversation-switch effect, source lines 520-529: the gate resets
    to open on every session change. -/
def sessionSwitchStep (s : PromptState) (sid : Option String) : PromptState :=
  { s with sessionID := sid, queueGate := Gate.open' }

/-- Events of the single-threaded host: reactive ticks, status feed
    updates, promise settlements and the user-triggered handlers. -/
inductive Event where
  | statusSet (st : AgentStatus)
  | sessionSwitch (sid : Option String)
  | gateTick
  | cleanupTick
  | dispatchTick
  | settle (ok : Bool)
  | interruptKey
  | interruptTimeout
  | submitKey (raw resolvedText : List Char) (resolvedParts : List PPart) (hasModel : Bool)
  | queueKey (freshId : String) (raw resolvedText : List Char) (resolvedParts : List PPart)
      (hasModel : Bool) (agentName : String) (model : String × String) (variant : Option String)
  | navMove (d : Int)

/-- Total event application. -/
def applyEvent (s : PromptState) : Event → PromptState
  | Event.statusSet st => { s with status := st }
  | Event.sessionSwitch sid => sessionSwitchStep s sid
  | Event.gateTick => gateStep s
  | Event.cleanupTick => cleanupStep s
  | Event.dispatchTick => dispatchStep s
  | Event.settle ok => settleStep s ok
  | Event.interruptKey => interruptStep s
  | Event.interruptTimeout => interruptTimeoutStep s
  | Event.submitKey raw rt rp hm => submitStep s raw rt rp hm
  | Event.queueKey fid raw rt rp hm ag md va => queueStep s fid raw rt rp hm ag md va
  | Event.navMove d => navStep s d

/-- Initial signal values, source lines 475-506: empty queue, no
    single-flight send, nothing being edited, gate open. -/
def initState (sid : Option String) (st : AgentStatus)
    (disabled ac focused : Bool) : PromptState :=
  { sessionID := sid, disabled := disabled, autocompleteVisible := ac,
    inputFocused := focused, mode := Mode.normal, interrupt := 0, status := st,
    queuedPrompts := [], sendingQueuedPrompt := false, queuedEditID := none,
    queuedCursor := none, queueGate := Gate.open', inFlight := 0 }

/-- States reachable from some initial state by event application. -/
inductive Reachable : PromptState → Prop where
  | init (sid : Option String) (st : AgentStatus) (disabled ac focused : Bool) :
      Reachable (initState sid st disabled ac focused)
  | step {s : PromptState} (e : Event) : Reachable s → Reachable (applyEvent s e)

/-- An extmark of the prompt part type: a tracked half-open range over
    the textarea buffer (the Marker of the spec). -/
structure Extmark where
  id : Nat
  start : Nat
  stop : Nat
deriving DecidableEq, Repr

/-- The live composition state consulted by resolvePromptInput: the raw
    buffer text, the ordered part list and the extmark-to-part-index map
    (store.prompt and store.extmarkToPartIndex, source lines 475-490).
    The JS Map is modeled as an association list. -/
structure ComposerStore where
  input : List Char
  parts : List PPart
  extmarkToPartIndex : List (Nat × Nat)
deriving DecidableEq, Repr

/-- Insertion of one extmark into a list already sorted by start offset
    descending, preserving the relative order of equal starts. -/
def insertDesc (m : Extmark) : List Extmark → List Extmark
  | [] => [m]
  | x :: xs => if x.start ≤ m.start then m :: x :: xs else x :: insertDesc m xs

/-- The sort at source line 949: extmarks ordered by start descending
    (a stable insertion sort, as Array.prototype.sort is stable). -/
def sortByStartDesc : List Extmark → List Extmark
  | [] => []
  | x :: xs => insertDesc x (sortByStartDesc xs)

/-- The body of the resolution loop, source lines 951-961: when the
    extmark maps to a part of type "text" with nonempty stored text, the
    placeholder range of the extmark is replaced by that text. -/
def expandStep (st : ComposerStore) (acc : List Char) (em : Extmark) : List Char :=
  match List.lookup em.id st.extmarkToPartIndex with
  | some partIndex =>
    match st.parts.get? partIndex with
    | some (PPart.text full) =>
      if full ≠ [] then acc.take em.start ++ full ++ acc.drop em.stop else acc
    | _ => acc
  | none => acc

/-- resolvePromptInput, source lines 946-967: fold the loop body over the
    extmarks sorted by start descending, and return the expanded text
    together with the parts whose type is not "text". -/
def resolvePromptInput (st : ComposerStore) (extmarks : List Extmark) :
    List Char × List PPart :=
  ((sortByStartDesc extmarks).foldl (expandStep st) st.input,
   st.parts.filter (fun part => !(PPart.isText part)))

/-- The replacement text an extmark contributes, when any: the stored
    full text of the mapped part when that part has type "text" and
    nonempty text. -/
def replacementOf (st : ComposerStore) (em : Extmark) : Option (List Char) :=
  match List.lookup em.id st.extmarkToPartIndex with
  | some partIndex =>
    match st.parts.get? partIndex with
    | some (PPart.text full) => if full ≠ [] then some full else none
    | _ => none
  | none => none

/-- One splice: replace the half-open range from s to e of the text by r. -/
def spliceOne (txt : List Char) (s e : Nat) (r : List Char) : List Char :=
  txt.take s ++ r ++ txt.drop e

/-- One splice applied to a range/replacement triple. -/
def spliceTriple (acc : List Char) (t : Nat × Nat × List Char) : List Char :=
  spliceOne acc t.1 t.2.1 t.2.2

/-- The active markers of a resolution walk as bare range/replacement
    triples, in walk order. -/
def triples (st : ComposerStore) (ems : List Extmark) : List (Nat × Nat × List Char) :=
  ems.filterMap (fun em => (replacementOf st em).map (fun r => (em.start, em.stop, r)))

/-- Modelled from the spec: the simultaneous splice — every range is
    replaced against the offsets of the ORIGINAL text.  The list of
    triples is in ascending start order; pos is the position up to which
    the original text was already emitted. -/
def spliceSimultaneous (txt : List Char) (pos : Nat) :
    List (Nat × Nat × List Char) → List Char
  | [] => txt.drop pos
  | (s, _e, r) :: rest => ((txt.take s).drop pos) ++ r ++ spliceSimultaneous txt _e rest

/-- Well-formedness of an ascending triple list over a text of length n:
    starting at pos, every range is within bounds, nonempty, and ranges
    are pairwise disjoint in ascending order. -/
def wellFormed (n pos : Nat) : List (Nat × Nat × List Char) → Bool
  | [] => true
  | (s, e, _) :: rest =>
    decide (pos ≤ s) && decide (s < e) && decide (e ≤ n) && wellFormed n e rest

/-- The dispatcher drain: repeatedly run the queued-dispatch effect and
    let each send settle, collecting the messages handed to sendPrompt in
    order.  Fuel bounds the number of rounds. -/
def drainAll : Nat → PromptState → List QueuedPrompt
  | 0, _ => []
  | n + 1, s =>
    match dispatchSelect s with
    | none => []
    | some next => next :: drainAll n (settleStep (dispatchStep s) true)

/-! Concrete example data used by witnesses and counterexamples. -/

/-- A queued message of conversation s1 with empty part list. -/
def mkMsg (id txt : String) : QueuedPrompt :=
  { id := id, sessionID := "s1", inputText := txt.toList, parts := [],
    agent := "build", model := ("anthropic", "claude"), variant := none }

/-- A component state for conversation s1 that is ready for auto-dispatch
    (gate open, agent idle, nothing being edited, no send in flight). -/
def readyState (q : List QueuedPrompt) : PromptState :=
  { sessionID := some "s1", disabled := false, autocompleteVisible := false,
    inputFocused := true, mode := Mode.normal, interrupt := 0,
    status := AgentStatus.idle, queuedPrompts := q, sendingQueuedPrompt := false,
    queuedEditID := none, queuedCursor := none, queueGate := Gate.open', inFlight := 0 }

/-- Three messages queued through queueAtEndOfLoop while the agent is
    running, after which the agent goes idle. -/
def c1Queued : PromptState :=
  applyEvent (applyEvent (applyEvent (applyEvent
    (initState (some "s1") AgentStatus.running false false true)
    (Event.queueKey "q1" "message 1".toList "message 1".toList [] true "build"
      ("anthropic", "claude") none))
    (Event.queueKey "q2" "message 2".toList "message 2".toList [] true "build"
      ("anthropic", "claude") none))
    (Event.queueKey "q3" "message 3".toList "message 3".toList [] true "build"
      ("anthropic", "claude") none))
    (Event.statusSet AgentStatus.idle)

/-- c1Queued after the in-place edit of the second entry. -/
def c1Edited : PromptState :=
  { c1Queued with
    queuedPrompts := editInPlace c1Queued.queuedPrompts "q2" "message 2xyz".toList [] }

/-- The gate-lifecycle trace of the spec: escalate the interrupt twice,
    let the abort land the agent on idle, submit directly, watch the
    agent leave idle and return to idle, with the reactive gate effect
    running after each observation. -/
def g0 : PromptState := initState (some "s1") AgentStatus.running false false true

def g1 : PromptState := applyEvent g0 Event.interruptKey

def g2 : PromptState := applyEvent g1 Event.interruptKey

def g3 : PromptState := applyEvent g2 (Event.statusSet AgentStatus.idle)

def g4 : PromptState := applyEvent g3 Event.gateTick

def g5 : PromptState :=
  applyEvent g4 (Event.submitKey "continue".toList "continue".toList [] true)

def g6 : PromptState := applyEvent g5 Event.gateTick

def g7 : PromptState := applyEvent g6 (Event.statusSet AgentStatus.running)

def g8 : PromptState := applyEvent g7 Event.gateTick

def g9 : PromptState := applyEvent g8 (Event.statusSet AgentStatus.idle)

def g10 : PromptState := applyEvent g9 Event.gateTick

/-- A paused-gate state used to witness that no auto-dispatch happens
    while the gate is closed. -/
def gateClosedEx : PromptState :=
  { readyState [mkMsg "q1" "message 1"] with queueGate := Gate.paused }

/-- A three-entry queue for the navigator examples: q1 oldest, q3 newest. -/
def navEx0 : PromptState :=
  readyState [mkMsg "q1" "oldest", mkMsg "q2" "middle", mkMsg "q3" "newest"]

def navEx1 : PromptState := navStep navEx0 (-1)

def navEx2 : PromptState := navStep navEx1 (-1)

def navEx3 : PromptState := navStep navEx2 (-1)

def navEx4 : PromptState := navStep navEx3 (-1)

/-- A composer store with two text-expansion markers for the resolution
    witness. -/
def w5Store : ComposerStore :=
  { input := "a [1] b [2] c".toList,
    parts := [PPart.text "ONE".toList, PPart.text "TWO".toList, PPart.file "f.txt"],
    extmarkToPartIndex := [(10, 0), (11, 1)] }

def w5Ems : List Extmark :=
  [{ id := 10, start := 2, stop := 5 }, { id := 11, start := 8, stop := 11 }]

/-- A composer store without any text part, carrying one file and one
    agent part whose marker map is live. -/
def w6Store : ComposerStore :=
  { input := "see @agent and f.txt".toList,
    parts := [PPart.agent "agent", PPart.file "f.txt"],
    extmarkToPartIndex := [(3, 0), (4, 1)] }

def w6Ems : List Extmark :=
  [{ id := 3, start := 4, stop := 10 }, { id := 4, start := 15, stop := 20 }]

/-- A state whose editing id points at an entry that was already
    dispatched (the queue still holds a different entry). -/
def c9s : PromptState :=
  { readyState [mkMsg "q2" "message 2"] with
    queuedEditID := some "q1", queuedCursor := some 0 }

/-- A reachable state with a dispatch in flight: enqueue while the agent
    runs, observe idle, then one dispatch tick. -/
def c2w : PromptState :=
  applyEvent (applyEvent (applyEvent
    (initState (some "s1") AgentStatus.running false false true)
    (Event.queueKey "q1" "message 1".toList "message 1".toList [] true "build"
      ("anthropic", "claude") none))
    (Event.statusSet AgentStatus.idle))
    Event.dispatchTick

/-- An idle-agent state used to witness the queue-action fallback. -/
def c10s : PromptState := readyState []

/-! Helper lemmas. -/

theorem expandStep_of_no_text (st : ComposerStore)
    (h : ∀ p ∈ st.parts, PPart.isText p = false) (acc : List Char) (em : Extmark) :
    expandStep st acc em = acc := by
  unfold expandStep
  split
  next partIndex heq =>
    split
    next full heq2 =>
      have hm : PPart.text full ∈ st.parts := List.get?_mem heq2
      have := h _ hm
      simp [PPart.isText] at this
    next => rfl
  next => rfl

theorem foldl_expand_of_no_text (st : ComposerStore)
    (h : ∀ p ∈ st.parts, PPart.isText p = false) :
    ∀ (l : List Extmark) (acc : List Char), l.foldl (expandStep st) acc = acc := by
  intro l
  induction l with
  | nil => intro acc; rfl
  | cons em rest ih =>
    intro acc
    rw [List.foldl_cons, expandStep_of_no_text st h, ih]

theorem editInPlace_map_id (q : List QueuedPrompt) (id : String) (t : List Char)
    (p : List PPart) :
    (editInPlace q id t p).map (fun m => m.id) = q.map (fun m => m.id) := by
  unfold editInPlace
  rw [List.map_map]
  apply List.map_congr_left
  intro m _
  by_cases hx : (m.id == id) = true <;> simp [Function.comp, hx]

theorem editInPlace_filter (q : List QueuedPrompt) (id : String) (t : List Char)
    (p : List PPart) (sid : String) :
    (editInPlace q id t p).filter (fun m => m.sessionID == sid) =
      editInPlace (q.filter (fun m => m.sessionID == sid)) id t p := by
  unfold editInPlace
  rw [List.filter_map]
  congr 1
  apply List.filter_congr
  intro m _
  by_cases hx : (m.id == id) = true <;> simp [Function.comp, hx]

theorem editInPlace_absent (q : List QueuedPrompt) (id : String) (t : List Char)
    (p : List PPart) (h : ∀ m ∈ q, m.id ≠ id) :
    editInPlace q id t p = q := by
  unfold editInPlace
  have h2 : ∀ m ∈ q,
      (if m.id == id then { m with inputText := t, parts := p } else m) = m := by
    intro m hm
    have hm2 : (m.id == id) = false := by
      simp only [beq_eq_false_iff_ne, ne_eq]
      exact h m hm
    simp [hm2]
  rw [List.map_congr_left h2, List.map_id']

theorem removeFirstById_sublist (q : List QueuedPrompt) (id : String) :
    List.Sublist (removeFirstById q id) q := by
  induction q with
  | nil => exact List.Sublist.refl _
  | cons x xs ih =>
    by_cases hx : (x.id == id) = true
    · rw [show removeFirstById (x :: xs) id = xs by simp [removeFirstById, hx]]
      exact List.sublist_cons_self x xs
    · rw [show removeFirstById (x :: xs) id = x :: removeFirstById xs id by
        simp [removeFirstById, hx]]
      exact List.Sublist.cons₂ x ih

theorem removeFirstById_nodup (q : List QueuedPrompt) (id : String)
    (h : (q.map (fun m => m.id)).Nodup) :
    ((removeFirstById q id).map (fun m => m.id)).Nodup :=
  h.sublist ((removeFirstById_sublist q id).map (fun m => m.id))

theorem filter_removeFirst (q : List QueuedPrompt) (sid : String)
    (m : QueuedPrompt) (rest : List QueuedPrompt)
    (hf : q.filter (fun x => x.sessionID == sid) = m :: rest)
    (hnodup : (q.map (fun x => x.id)).Nodup) :
    (removeFirstById q m.id).filter (fun x => x.sessionID == sid) = rest := by
  induction q with
  | nil => simp at hf
  | cons x xs ih =>
    rw [List.map_cons] at hnodup
    obtain ⟨hnotin, hnodup'⟩ := List.nodup_cons.mp hnodup
    by_cases hx : (x.sessionID == sid) = true
    · rw [List.filter_cons, if_pos hx] at hf
      obtain ⟨hxm, hrest⟩ := List.cons_eq_cons.mp hf
      subst hxm
      rw [show removeFirstById (x :: xs) x.id = xs by simp [removeFirstById]]
      exact hrest
    · rw [List.filter_cons, if_neg hx] at hf
      have hmmem : m ∈ xs := by
        have hmem : m ∈ xs.filter (fun x => x.sessionID == sid) := by rw [hf]; simp
        exact List.mem_of_mem_filter hmem
      have hxm : (x.id == m.id) = false := by
        have hmid : m.id ∈ xs.map (fun x => x.id) := List.mem_map_of_mem _ hmmem
        simp only [beq_eq_false_iff_ne, ne_eq]
        intro hcontra
        exact hnotin (hcontra ▸ hmid)
      rw [show removeFirstById (x :: xs) m.id = x :: removeFirstById xs m.id by
        simp [removeFirstById, hxm]]
      rw [List.filter_cons, if_neg hx]
      exact ih hf hnodup'

theorem dispatchSelect_guards (s : PromptState) (next : QueuedPrompt)
    (h : dispatchSelect s = some next) :
    s.queueGate = Gate.open' ∧ s.sendingQueuedPrompt = false ∧
    s.queuedEditID = none ∧ s.status = AgentStatus.idle ∧
    (queuedForSession s).head? = some next := by
  unfold dispatchSelect at h
  split at h
  · exact absurd h (by simp)
  next hg =>
    split at h
    · exact absurd h (by simp)
    next hsend =>
      split at h
      · exact absurd h (by simp)
      next he =>
        split at h
        · exact absurd h (by simp)
        next hst =>
          refine ⟨by simpa using hg, by simpa using hsend, ?_, by simpa using hst, h⟩
          cases heid : s.queuedEditID with
          | none => rfl
          | some id => rw [heid] at he; simp at he

theorem dispatchSelect_none_of_closed (s : PromptState)
    (h : s.queueGate ≠ Gate.open') : dispatchSelect s = none := by
  unfold dispatchSelect
  rw [if_pos h]

/-- The single-flight invariant: the ghost count of outstanding
    dispatcher sends is 1 exactly while the sendingQueuedPrompt flag is
    set, and 0 otherwise. -/
def SingleFlightInv (s : PromptState) : Prop :=
  s.inFlight = (if s.sendingQueuedPrompt then 1 else 0)

theorem gateStep_flight (s : PromptState) :
    (gateStep s).sendingQueuedPrompt = s.sendingQueuedPrompt ∧
    (gateStep s).inFlight = s.inFlight := by
  unfold gateStep
  repeat' split
  all_goals exact ⟨rfl, rfl⟩

theorem cleanupStep_flight (s : PromptState) :
    (cleanupStep s).sendingQueuedPrompt = s.sendingQueuedPrompt ∧
    (cleanupStep s).inFlight = s.inFlight := by
  unfold cleanupStep
  repeat' split
  all_goals exact ⟨rfl, rfl⟩

theorem navStep_flight (s : PromptState) (d : Int) :
    (navStep s d).sendingQueuedPrompt = s.sendingQueuedPrompt ∧
    (navStep s d).inFlight = s.inFlight := by
  unfold navStep
  dsimp only
  repeat' split
  all_goals exact ⟨rfl, rfl⟩

theorem interruptStep_flight (s : PromptState) :
    (interruptStep s).sendingQueuedPrompt = s.sendingQueuedPrompt ∧
    (interruptStep s).inFlight = s.inFlight := by
  unfold interruptStep
  dsimp only
  repeat' split
  all_goals exact ⟨rfl, rfl⟩

theorem submitStep_flight (s : PromptState) (raw rt : List Char) (rp : List PPart)
    (hm : Bool) :
    (submitStep s raw rt rp hm).sendingQueuedPrompt = s.sendingQueuedPrompt ∧
    (submitStep s raw rt rp hm).inFlight = s.inFlight := by
  unfold submitStep
  dsimp only
  repeat' split
  all_goals exact ⟨rfl, rfl⟩

theorem queueStep_flight (s : PromptState) (fid : String) (raw rt : List Char)
    (rp : List PPart) (hm : Bool) (ag : String) (md : String × String)
    (va : Option String) :
    (queueStep s fid raw rt rp hm ag md va).sendingQueuedPrompt = s.sendingQueuedPrompt ∧
    (queueStep s fid raw rt rp hm ag md va).inFlight = s.inFlight := by
  unfold queueStep
  repeat' split
  all_goals first
    | exact ⟨rfl, rfl⟩
    | exact submitStep_flight ..

theorem applyEvent_inv (s : PromptState) (e : Event) (h : SingleFlightInv s) :
    SingleFlightInv (applyEvent s e) := by
  cases e with
  | statusSet st => exact h
  | sessionSwitch sid => exact h
  | gateTick =>
    show SingleFlightInv (gateStep s)
    unfold SingleFlightInv at h ⊢
    rw [(gateStep_flight s).1, (gateStep_flight s).2]
    exact h
  | cleanupTick =>
    show SingleFlightInv (cleanupStep s)
    unfold SingleFlightInv at h ⊢
    rw [(cleanupStep_flight s).1, (cleanupStep_flight s).2]
    exact h
  | dispatchTick =>
    show SingleFlightInv (dispatchStep s)
    unfold dispatchStep
    cases hsel : dispatchSelect s with
    | none => exact h
    | some next =>
      have hsend := (dispatchSelect_guards s next hsel).2.1
      unfold SingleFlightInv at h ⊢
      simp only [hsend, if_false, Bool.false_eq_true] at h
      simp [h]
  | settle ok =>
    show SingleFlightInv (settleStep s ok)
    unfold settleStep
    split
    · exact h
    next hfl =>
      unfold SingleFlightInv at h ⊢
      cases hsend : s.sendingQueuedPrompt with
      | false => rw [hsend] at h; simp at h; exact absurd h hfl
      | true => rw [hsend] at h; simp at h; simp [h]
  | interruptKey =>
    show SingleFlightInv (interruptStep s)
    unfold SingleFlightInv at h ⊢
    rw [(interruptStep_flight s).1, (interruptStep_flight s).2]
    exact h
  | interruptTimeout => exact h
  | submitKey raw rt rp hm =>
    show SingleFlightInv (submitStep s raw rt rp hm)
    unfold SingleFlightInv at h ⊢
    rw [(submitStep_flight s raw rt rp hm).1, (submitStep_flight s raw rt rp hm).2]
    exact h
  | queueKey fid raw rt rp hm ag md va =>
    show SingleFlightInv (queueStep s fid raw rt rp hm ag md va)
    unfold SingleFlightInv at h ⊢
    rw [(queueStep_flight s fid raw rt rp hm ag md va).1,
        (queueStep_flight s fid raw rt rp hm ag md va).2]
    exact h
  | navMove d =>
    show SingleFlightInv (navStep s d)
    unfold SingleFlightInv at h ⊢
    rw [(navStep_flight s d).1, (navStep_flight s d).2]
    exact h

theorem reachable_inv (s : PromptState) (h : Reachable s) : SingleFlightInv s := by
  induction h with
  | init sid st disabled ac focused => rfl
  | step e _ ih => exact applyEvent_inv _ e ih

theorem queuedForSession_eq (s : PromptState) (sid : String)
    (h : s.sessionID = some sid) :
    queuedForSession s = s.queuedPrompts.filter (fun m => m.sessionID == sid) := by
  unfold queuedForSession
  rw [h]

theorem drain_core (n : Nat) : ∀ (s : PromptState) (sid : String),
    s.sessionID = some sid →
    s.queueGate = Gate.open' →
    s.sendingQueuedPrompt = false →
    s.queuedEditID = none →
    s.status = AgentStatus.idle →
    (s.queuedPrompts.map (fun m => m.id)).Nodup →
    (queuedForSession s).length = n →
    drainAll n s = queuedForSession s := by
  induction n with
  | zero =>
    intro s sid hsid hg hsend he hst hnd hlen
    have hempty : queuedForSession s = [] := List.length_eq_zero.mp hlen
    rw [hempty]
    rfl
  | succ n ih =>
    intro s sid hsid hg hsend he hst hnd hlen
    cases hq : queuedForSession s with
    | nil => rw [hq] at hlen; simp at hlen
    | cons m rest =>
      have hsel : dispatchSelect s = some m := by
        unfold dispatchSelect
        rw [if_neg (by rw [hg]; simp), if_neg (by rw [hsend]; simp),
            if_neg (by rw [he]; simp), if_neg (by rw [hst]; simp), hq]
        rfl
      have hds : dispatchStep s =
          { s with sendingQueuedPrompt := true,
                   queuedPrompts := removeFirstById s.queuedPrompts m.id,
                   inFlight := s.inFlight + 1 } := by
        unfold dispatchStep
        rw [hsel]
      have hset : settleStep (dispatchStep s) true =
          { s with queuedPrompts := removeFirstById s.queuedPrompts m.id,
                   sendingQueuedPrompt := false,
                   inFlight := s.inFlight } := by
        rw [hds]
        unfold settleStep
        rw [if_neg (by simp)]
        simp
      have hfilter : s.queuedPrompts.filter (fun x => x.sessionID == sid) = m :: rest := by
        rw [← queuedForSession_eq s sid hsid]
        exact hq
      have hq2 : queuedForSession (settleStep (dispatchStep s) true) = rest := by
        rw [hset]
        unfold queuedForSession
        dsimp only
        rw [hsid]
        exact filter_removeFirst s.queuedPrompts sid m rest hfilter hnd
      have hunf : drainAll (n + 1) s = m :: drainAll n (settleStep (dispatchStep s) true) := by
        show (match dispatchSelect s with
          | none => []
          | some next => next :: drainAll n (settleStep (dispatchStep s) true)) =
          m :: drainAll n (settleStep (dispatchStep s) true)
        rw [hsel]
      rw [hunf]
      congr 1
      rw [ih (settleStep (dispatchStep s) true) sid (by rw [hset]; exact hsid)
        (by rw [hset]; exact hg) (by rw [hset]) (by rw [hset]; exact he)
        (by rw [hset]; exact hst) (by rw [hset]; exact removeFirstById_nodup _ _ hnd)
        (by rw [hq2]; rw [hq] at hlen; simpa using hlen)]
      exact hq2

theorem expandStep_eq (st : ComposerStore) (acc : List Char) (em : Extmark) :
    expandStep st acc em =
      (match replacementOf st em with
       | some r => spliceOne acc em.start em.stop r
       | none => acc) := by
  unfold expandStep replacementOf
  cases heq : List.lookup em.id st.extmarkToPartIndex with
  | none => rfl
  | some partIndex =>
    dsimp only
    cases heq2 : st.parts.get? partIndex with
    | none => rfl
    | some p =>
      cases p with
      | text full =>
        by_cases hf : full = []
        · simp [hf]
        · simp [hf, spliceOne]
      | file payload => rfl
      | agent payload => rfl

theorem foldl_triples (st : ComposerStore) : ∀ (ems : List Extmark) (acc : List Char),
    ems.foldl (expandStep st) acc = (triples st ems).foldl spliceTriple acc := by
  intro ems
  induction ems with
  | nil => intro acc; rfl
  | cons em rest ih =>
    intro acc
    rw [List.foldl_cons, expandStep_eq, ih]
    cases hr : replacementOf st em with
    | none => simp [triples, List.filterMap_cons, hr]
    | some r => simp [triples, List.filterMap_cons, hr, spliceTriple]

theorem foldr_splice_take (txt : List Char) :
    ∀ (asc : List (Nat × Nat × List Char)) (p q : Nat),
      wellFormed txt.length p asc = true → q ≤ p →
      (asc.foldr (fun t acc => spliceTriple acc t) txt).take q = txt.take q := by
  intro asc
  induction asc with
  | nil => intro p q hwf hq; rfl
  | cons t rest ih =>
    obtain ⟨s, e, r⟩ := t
    intro p q hwf hq
    simp only [wellFormed, Bool.and_eq_true, decide_eq_true_eq] at hwf
    obtain ⟨⟨⟨hps, hse⟩, hen⟩, hrest⟩ := hwf
    have hlen_inner : e ≤ (rest.foldr (fun t acc => spliceTriple acc t) txt).length := by
      have h1 := ih e e hrest (le_refl e)
      have h2 := congrArg List.length h1
      rw [List.length_take, List.length_take] at h2
      rw [min_eq_left hen] at h2
      exact min_eq_left_iff.mp h2
    rw [List.foldr_cons]
    show (spliceTriple (rest.foldr (fun t acc => spliceTriple acc t) txt) (s, e, r)).take q =
      txt.take q
    rw [show spliceTriple (rest.foldr (fun t acc => spliceTriple acc t) txt) (s, e, r) =
      (rest.foldr (fun t acc => spliceTriple acc t) txt).take s ++ r ++
      (rest.foldr (fun t acc => spliceTriple acc t) txt).drop e from rfl]
    rw [List.append_assoc, List.take_append_eq_append_take]
    have hAlen : ((rest.foldr (fun t acc => spliceTriple acc t) txt).take s).length = s := by
      rw [List.length_take]
      exact min_eq_left (le_trans (le_of_lt hse) hlen_inner)
    rw [hAlen, Nat.sub_eq_zero_of_le (le_trans hq hps), List.take_zero, List.append_nil]
    rw [List.take_take, min_eq_left (le_trans hq hps)]
    exact ih e q hrest (le_trans hq (le_trans hps (le_of_lt hse)))

theorem foldr_splice_drop (txt : List Char) :
    ∀ (asc : List (Nat × Nat × List Char)) (p : Nat),
      wellFormed txt.length p asc = true →
      (asc.foldr (fun t acc => spliceTriple acc t) txt).drop p =
        spliceSimultaneous txt p asc := by
  intro asc
  induction asc with
  | nil => intro p hwf; rfl
  | cons t rest ih =>
    obtain ⟨s, e, r⟩ := t
    intro p hwf
    simp only [wellFormed, Bool.and_eq_true, decide_eq_true_eq] at hwf
    obtain ⟨⟨⟨hps, hse⟩, hen⟩, hrest⟩ := hwf
    have hlen_inner : e ≤ (rest.foldr (fun t acc => spliceTriple acc t) txt).length := by
      have h1 := foldr_splice_take txt rest e e hrest (le_refl e)
      have h2 := congrArg List.length h1
      rw [List.length_take, List.length_take] at h2
      rw [min_eq_left hen] at h2
      exact min_eq_left_iff.mp h2
    rw [List.foldr_cons]
    show (spliceTriple (rest.foldr (fun t acc => spliceTriple acc t) txt) (s, e, r)).drop p =
      spliceSimultaneous txt p ((s, e, r) :: rest)
    rw [show spliceTriple (rest.foldr (fun t acc => spliceTriple acc t) txt) (s, e, r) =
      (rest.foldr (fun t acc => spliceTriple acc t) txt).take s ++ r ++
      (rest.foldr (fun t acc => spliceTriple acc t) txt).drop e from rfl]
    rw [List.append_assoc, List.drop_append_eq_append_drop]
    have hAlen : ((rest.foldr (fun t acc => spliceTriple acc t) txt).take s).length = s := by
      rw [List.length_take]
      exact min_eq_left (le_trans (le_of_lt hse) hlen_inner)
    rw [hAlen, Nat.sub_eq_zero_of_le hps, List.drop_zero]
    rw [foldr_splice_take txt rest e s hrest (le_of_lt hse)]
    rw [ih e hrest]
    show (txt.take s).drop p ++ (r ++ spliceSimultaneous txt e rest) =
      spliceSimultaneous txt p ((s, e, r) :: rest)
    rw [← List.append_assoc]
    rfl

theorem foldl_desc_eq_simultaneous (txt : List Char) (desc : List (Nat × Nat × List Char))
    (hwf : wellFormed txt.length 0 desc.reverse = true) :
    desc.foldl spliceTriple txt = spliceSimultaneous txt 0 desc.reverse := by
  have h1 : desc.foldl spliceTriple txt =
      (desc.reverse).foldr (fun t acc => spliceTriple acc t) txt := by
    conv_lhs => rw [← List.reverse_reverse desc]
    rw [List.foldl_reverse]
  have h2 := foldr_splice_drop txt desc.reverse 0 hwf
  rw [h1, ← h2, List.drop_zero]

theorem submitStep_queue_length (s : PromptState) (raw rt : List Char) (rp : List PPart)
    (hm : Bool) :
    (submitStep s raw rt rp hm).queuedPrompts.length = s.queuedPrompts.length := by
  unfold submitStep
  dsimp only
  repeat' split
  all_goals first
    | rfl
    | simp [editInPlace]

/-! Claim theorems. -/

/-- C2: in every reachable state at most one dispatcher send call is in
    flight per conversation: the single-flight flag is set synchronously
    before the send and cleared only when it settles, so the ghost count
    of outstanding dispatcher sends never exceeds one, whatever sequence
    of gate, status and queue events occurs. -/
theorem single_flight_dispatch (s : PromptState) (h : Reachable s) : s.inFlight ≤ 1 := by
  have hinv := reachable_inv s h
  rw [SingleFlightInv] at hinv
  rw [hinv]
  split <;> omega

/-- Witness for C2: a concrete reachable state that actually has a
    dispatch in flight. -/
theorem single_flight_dispatch_witness :
    Reachable c2w ∧ c2w.inFlight = 1 ∧ c2w.inFlight ≤ 1 :=
  ⟨Reachable.step Event.dispatchTick (Reachable.step (Event.statusSet AgentStatus.idle)
      (Reachable.step (Event.queueKey "q1" "message 1".toList "message 1".toList [] true
        "build" ("anthropic", "claude") none)
        (Reachable.init (some "s1") AgentStatus.running false false true))),
   by decide,
   single_flight_dispatch c2w
     (Reachable.step Event.dispatchTick (Reachable.step (Event.statusSet AgentStatus.idle)
       (Reachable.step (Event.queueKey "q1" "message 1".toList "message 1".toList [] true
         "build" ("anthropic", "claude") none)
         (Reachable.init (some "s1") AgentStatus.running false false true))))⟩

/-- C3: from Open the double interrupt escalation pauses the gate, a
    direct submit while Paused moves it to WaitBusy, the agent leaving
    idle moves it to WaitIdle, the agent returning to idle reopens it, in
    exactly this order along the scripted trace; and the dispatch effect
    never changes the state while the gate is not Open. -/
theorem gate_lifecycle :
    (g0.queueGate = Gate.open' ∧ g1.queueGate = Gate.open' ∧ g2.queueGate = Gate.paused ∧
     g3.queueGate = Gate.paused ∧ g4.queueGate = Gate.paused ∧
     g5.queueGate = Gate.wait_busy ∧ g6.queueGate = Gate.wait_busy ∧
     g7.queueGate = Gate.wait_busy ∧ g8.queueGate = Gate.wait_idle ∧
     g9.queueGate = Gate.wait_idle ∧ g10.queueGate = Gate.open') ∧
    (∀ s : PromptState, s.queueGate ≠ Gate.open' → applyEvent s Event.dispatchTick = s) := by
  constructor
  · decide
  · intro s hs
    show dispatchStep s = s
    unfold dispatchStep
    rw [dispatchSelect_none_of_closed s hs]

/-- Witness for C3: the no-dispatch conjunct applied at a concrete
    paused-gate state holding a queued message. -/
theorem gate_lifecycle_witness :
    gateClosedEx.queueGate ≠ Gate.open' ∧
    applyEvent gateClosedEx Event.dispatchTick = gateClosedEx :=
  ⟨by decide, gate_lifecycle.2 gateClosedEx (by decide)⟩

/-- C9: an in-place edit whose target id is gone leaves the queue exactly
    unchanged (and raises nothing, the function being total), and the
    cleanup effect clears the editing id and cursor as soon as the
    absence of the target is observed, touching nothing else of the
    queue. -/
theorem stale_edit_silent_noop (q : List QueuedPrompt) (id : String) (t : List Char)
    (p : List PPart) (s : PromptState)
    (habs : ∀ m ∈ q, m.id ≠ id)
    (heid : s.queuedEditID = some id)
    (habs2 : ∀ m ∈ queuedForSession s, m.id ≠ id) :
    editInPlace q id t p = q ∧
    (cleanupStep s).queuedEditID = none ∧
    (cleanupStep s).queuedCursor = none ∧
    (cleanupStep s).queuedPrompts = s.queuedPrompts := by
  have hany : (queuedForSession s).any (fun item => item.id == id) = false := by
    rw [List.any_eq_false]
    intro x hx
    simpa using habs2 x hx
  refine ⟨editInPlace_absent q id t p habs, ?_, ?_, ?_⟩ <;>
    · unfold cleanupStep
      rw [heid]
      dsimp only
      rw [hany]
      simp

/-- Witness for C9 at a concrete stale-edit state. -/
theorem stale_edit_silent_noop_witness :
    ((∀ m ∈ [mkMsg "q2" "message 2"], m.id ≠ "q1") ∧
     c9s.queuedEditID = some "q1" ∧ (∀ m ∈ queuedForSession c9s, m.id ≠ "q1")) ∧
    (editInPlace [mkMsg "q2" "message 2"] "q1" "new text".toList [] =
       [mkMsg "q2" "message 2"] ∧
     (cleanupStep c9s).queuedEditID = none ∧
     (cleanupStep c9s).queuedCursor = none ∧
     (cleanupStep c9s).queuedPrompts = c9s.queuedPrompts) :=
  ⟨⟨by decide, by decide, by decide⟩,
   stale_edit_silent_noop [mkMsg "q2" "message 2"] "q1" "new text".toList [] c9s
     (by decide) (by decide) (by decide)⟩

/-- C10: when the queue action runs while the agent is idle, or without a
    session, or in shell mode, or with empty or slash-leading trimmed
    input, nothing is appended to the tail queue: the call is handed to
    the normal submit path, and the queue length is unchanged. -/
theorem queue_action_falls_back (s : PromptState) (fid : String) (raw rt : List Char)
    (rp : List PPart) (hm : Bool) (ag : String) (md : String × String) (va : Option String)
    (hd : s.disabled = false) (ha : s.autocompleteVisible = false)
    (hcond : s.sessionID = none ∨ s.status = AgentStatus.idle ∨ s.mode ≠ Mode.normal ∨
      trimWS raw = [] ∨ (trimWS raw).head? = some '/') :
    queueStep s fid raw rt rp hm ag md va = submitStep s raw rt rp hm ∧
    (queueStep s fid raw rt rp hm ag md va).queuedPrompts.length =
      s.queuedPrompts.length := by
  have heq : queueStep s fid raw rt rp hm ag md va = submitStep s raw rt rp hm := by
    unfold queueStep
    rw [if_neg (by simp [hd]), if_neg (by simp [ha])]
    cases hsid : s.sessionID with
    | none => rfl
    | some sid =>
      dsimp only
      rcases hcond with h | h | h | h | h
      · rw [hsid] at h
        exact absurd h (by simp)
      · split
        · rfl
        next hneg => simp [h] at hneg
      · split
        · rfl
        next hneg => simp [h] at hneg
      · split
        · rfl
        next hneg =>
          split
          · rfl
          next hneg2 => simp [h] at hneg2
      · split
        · rfl
        next hneg =>
          split
          · rfl
          next hneg2 => simp [h] at hneg2
  refine ⟨heq, ?_⟩
  rw [heq]
  exact submitStep_queue_length s raw rt rp hm

/-- Witness for C10: the queue action with an idle agent is the submit
    path and appends nothing. -/
theorem queue_action_falls_back_witness :
    (c10s.disabled = false ∧ c10s.autocompleteVisible = false ∧
     c10s.status = AgentStatus.idle) ∧
    (queueStep c10s "qf" "hello".toList "hello".toList [] true "build"
        ("anthropic", "claude") none =
      submitStep c10s "hello".toList "hello".toList [] true ∧
     (queueStep c10s "qf" "hello".toList "hello".toList [] true "build"
        ("anthropic", "claude") none).queuedPrompts.length =
       c10s.queuedPrompts.length) :=
  ⟨⟨by decide, by decide, by decide⟩,
   queue_action_falls_back c10s "qf" "hello".toList "hello".toList [] true "build"
     ("anthropic", "claude") none (by decide) (by decide)
     (Or.inr (Or.inl (by decide)))⟩

/-- C1: the dispatcher drains a conversation queue exactly in insertion
    order, even after an in-place edit of any entry: the drained sequence
    equals the session queue after the edit, and that queue carries the
    same ids in the same order as before the edit. -/
theorem tail_queue_drain_in_insertion_order (s : PromptState) (sid : String)
    (hsid : s.sessionID = some sid)
    (hg : s.queueGate = Gate.open')
    (hsend : s.sendingQueuedPrompt = false)
    (he : s.queuedEditID = none)
    (hst : s.status = AgentStatus.idle)
    (hnd : (s.queuedPrompts.map (fun m => m.id)).Nodup)
    (editId : String) (newText : List Char) (newParts : List PPart) :
    drainAll
        (queuedForSession
          { s with queuedPrompts := editInPlace s.queuedPrompts editId newText newParts }).length
        { s with queuedPrompts := editInPlace s.queuedPrompts editId newText newParts } =
      queuedForSession
        { s with queuedPrompts := editInPlace s.queuedPrompts editId newText newParts } ∧
    (queuedForSession
        { s with queuedPrompts := editInPlace s.queuedPrompts editId newText newParts }).map
        (fun m => m.id) =
      (queuedForSession s).map (fun m => m.id) := by
  constructor
  · apply drain_core _
      { s with queuedPrompts := editInPlace s.queuedPrompts editId newText newParts } sid
    · exact hsid
    · exact hg
    · exact hsend
    · exact he
    · exact hst
    · show ((editInPlace s.queuedPrompts editId newText newParts).map (fun m => m.id)).Nodup
      rw [editInPlace_map_id]
      exact hnd
    · rfl
  · rw [queuedForSession_eq _ sid hsid]
    rw [show queuedForSession
        { s with queuedPrompts := editInPlace s.queuedPrompts editId newText newParts } =
      (editInPlace s.queuedPrompts editId newText newParts).filter
        (fun m => m.sessionID == sid) from queuedForSession_eq _ sid hsid]
    rw [editInPlace_filter]
    exact editInPlace_map_id _ _ _ _

/-- Witness for C1 at the spec example: queue message 1, message 2,
    message 3; edit the second in place to message 2xyz; the drain is
    message 1, message 2xyz, message 3. -/
theorem tail_queue_drain_in_insertion_order_witness :
    (c1Queued.sessionID = some "s1" ∧ c1Queued.queueGate = Gate.open' ∧
     c1Queued.sendingQueuedPrompt = false ∧ c1Queued.queuedEditID = none ∧
     c1Queued.status = AgentStatus.idle ∧
     (c1Queued.queuedPrompts.map (fun m => m.id)).Nodup) ∧
    (drainAll (queuedForSession c1Edited).length c1Edited = queuedForSession c1Edited ∧
     (queuedForSession c1Edited).map (fun m => m.id) =
       (queuedForSession c1Queued).map (fun m => m.id)) ∧
    (drainAll (queuedForSession c1Edited).length c1Edited).map (fun m => m.inputText) =
      ["message 1".toList, "message 2xyz".toList, "message 3".toList] :=
  ⟨⟨by decide, by decide, by decide, by decide, by decide, by decide⟩,
   tail_queue_drain_in_insertion_order c1Queued "s1" (by decide) (by decide) (by decide)
     (by decide) (by decide) (by decide) "q2" "message 2xyz".toList [],
   by decide⟩

/-- C4: a rejected dispatch send only clears the single-flight flag (the
    toast is the only other effect): the popped item is not re-inserted,
    the gate is untouched, and the session queue after the failure is
    exactly the tail left by the pop. -/
theorem send_failure_fire_and_forget (s : PromptState) (sid : String)
    (next : QueuedPrompt)
    (hsid : s.sessionID = some sid)
    (hsel : dispatchSelect s = some next)
    (hnd : (s.queuedPrompts.map (fun m => m.id)).Nodup) :
    settleStep (dispatchStep s) false =
      { dispatchStep s with sendingQueuedPrompt := false,
                            inFlight := (dispatchStep s).inFlight - 1 } ∧
    (settleStep (dispatchStep s) false).queuedPrompts = (dispatchStep s).queuedPrompts ∧
    (settleStep (dispatchStep s) false).queueGate = s.queueGate ∧
    queuedForSession (settleStep (dispatchStep s) false) = (queuedForSession s).tail := by
  have hds : dispatchStep s =
      { s with sendingQueuedPrompt := true,
               queuedPrompts := removeFirstById s.queuedPrompts next.id,
               inFlight := s.inFlight + 1 } := by
    unfold dispatchStep
    rw [hsel]
  have hset : settleStep (dispatchStep s) false =
      { s with queuedPrompts := removeFirstById s.queuedPrompts next.id,
               sendingQueuedPrompt := false,
               inFlight := s.inFlight } := by
    rw [hds]
    unfold settleStep
    rw [if_neg (by simp)]
    simp
  obtain ⟨_, _, _, _, hhead⟩ := dispatchSelect_guards s next hsel
  cases hq : queuedForSession s with
  | nil => rw [hq] at hhead; simp at hhead
  | cons m rest =>
    rw [hq] at hhead
    have hm : m = next := by simpa using hhead
    subst hm
    have hfilter : s.queuedPrompts.filter (fun x => x.sessionID == sid) = m :: rest := by
      rw [← queuedForSession_eq s sid hsid]
      exact hq
    refine ⟨?_, ?_, ?_, ?_⟩
    · rw [hset, hds]
      simp
    · rw [hset, hds]
    · rw [hset]
    · rw [hset]
      unfold queuedForSession
      dsimp only
      rw [hsid]
      exact filter_removeFirst s.queuedPrompts sid m rest hfilter hnd

/-- Witness for C4 at a two-entry queue. -/
theorem send_failure_fire_and_forget_witness :
    (dispatchSelect (readyState [mkMsg "qa" "hello", mkMsg "qb" "world"]) =
       some (mkMsg "qa" "hello") ∧
     ((readyState [mkMsg "qa" "hello", mkMsg "qb" "world"]).queuedPrompts.map
       (fun m => m.id)).Nodup) ∧
    (settleStep (dispatchStep (readyState [mkMsg "qa" "hello", mkMsg "qb" "world"]))
        false).queuedPrompts =
      (dispatchStep (readyState [mkMsg "qa" "hello", mkMsg "qb" "world"])).queuedPrompts ∧
    queuedForSession (settleStep
        (dispatchStep (readyState [mkMsg "qa" "hello", mkMsg "qb" "world"])) false) =
      (queuedForSession (readyState [mkMsg "qa" "hello", mkMsg "qb" "world"])).tail :=
  ⟨⟨by decide, by decide⟩,
   (send_failure_fire_and_forget (readyState [mkMsg "qa" "hello", mkMsg "qb" "world"])
     "s1" (mkMsg "qa" "hello") (by decide) (by decide) (by decide)).2.1,
   (send_failure_fire_and_forget (readyState [mkMsg "qa" "hello", mkMsg "qb" "world"])
     "s1" (mkMsg "qa" "hello") (by decide) (by decide) (by decide)).2.2.2⟩

/-- C5: resolvePromptInput walks the markers sorted by start descending
    and splices the stored full text of every live text part into the raw
    input in place of its placeholder range; for pairwise disjoint
    in-bounds markers the result equals the simultaneous splice against
    the offsets of the original text (so no splice invalidates a
    not-yet-processed marker), together with exactly the non-text parts. -/
theorem resolve_descending_splice (st : ComposerStore) (ems : List Extmark)
    (hwf : wellFormed st.input.length 0
      ((triples st (sortByStartDesc ems)).reverse) = true) :
    resolvePromptInput st ems =
      (spliceSimultaneous st.input 0 ((triples st (sortByStartDesc ems)).reverse),
       st.parts.filter (fun part => !(PPart.isText part))) := by
  unfold resolvePromptInput
  rw [foldl_triples]
  rw [foldl_desc_eq_simultaneous st.input (triples st (sortByStartDesc ems)) hwf]

/-- Witness for C5 with two expansion markers whose splices both land at
    their original offsets. -/
theorem resolve_descending_splice_witness :
    wellFormed w5Store.input.length 0
      ((triples w5Store (sortByStartDesc w5Ems)).reverse) = true ∧
    resolvePromptInput w5Store w5Ems =
      (spliceSimultaneous w5Store.input 0
        ((triples w5Store (sortByStartDesc w5Ems)).reverse),
       w5Store.parts.filter (fun part => !(PPart.isText part))) ∧
    (resolvePromptInput w5Store w5Ems).1 = "a ONE b TWO c".toList ∧
    (resolvePromptInput w5Store w5Ems).2 = [PPart.file "f.txt"] :=
  ⟨by decide, resolve_descending_splice w5Store w5Ems (by decide), by decide, by decide⟩

/-- C6: a composition without any text-type part resolves to the raw
    input unchanged and to its part list unchanged (all parts being
    non-text, the filter keeps them in insertion order). -/
theorem resolve_no_text_unchanged (st : ComposerStore) (ems : List Extmark)
    (h : ∀ p ∈ st.parts, PPart.isText p = false) :
    resolvePromptInput st ems = (st.input, st.parts) := by
  unfold resolvePromptInput
  rw [foldl_expand_of_no_text st h]
  rw [List.filter_eq_self.mpr (by intro a ha; simp [h a ha])]

/-- Witness for C6 at a store holding one agent and one file part. -/
theorem resolve_no_text_unchanged_witness :
    (∀ p ∈ w6Store.parts, PPart.isText p = false) ∧
    resolvePromptInput w6Store w6Ems = (w6Store.input, w6Store.parts) :=
  ⟨by decide, resolve_no_text_unchanged w6Store w6Ems (by decide)⟩

/-- C7 counterexample: on a three-entry queue with no selection, three
    successive editQueued moves with direction -1 do NOT visit newest,
    middle, oldest: the second move already wraps to the oldest entry. -/
theorem navigator_claimed_order_false :
    [navEx1.queuedEditID, navEx2.queuedEditID, navEx3.queuedEditID] ≠
      [some "q3", some "q2", some "q1"] := by decide

/-- C7 amended: from unselected, editQueued (-1) first selects the newest
    entry (cursor 0 of the newest-first list) and each further move
    DECREMENTS the cursor with cyclic wrap, so a three-entry queue is
    visited newest, oldest, middle, and the fourth move returns to the
    newest entry. -/
theorem navigator_cyclic_newest_oldest_middle :
    [navEx1.queuedEditID, navEx2.queuedEditID, navEx3.queuedEditID,
     navEx4.queuedEditID] =
      [some "q3", some "q1", some "q2", some "q3"] ∧
    [navEx1.queuedCursor, navEx2.queuedCursor, navEx3.queuedCursor,
     navEx4.queuedCursor] = [some 0, some 2, some 1, some 0] := by decide

/-- C8 counterexample: for a message of 81 letters the preview is not the
    first 80 characters followed by the ellipsis. -/
theorem preview_not_first_80 :
    queuedPreview (List.replicate 81 'a') ≠
      (List.replicate 81 'a').take 80 ++ ('.' :: '.' :: '.' :: []) := by decide

/-- C8 amended: when the whitespace-normalized one-line text is longer
    than 80 characters, the preview is its first 77 characters followed
    by three dots, 80 characters in total; text that fits is shown
    whole. -/
theorem preview_first_77 (inputText : List Char) :
    (80 < (normalizeWS inputText).length →
      queuedPreview inputText =
        (normalizeWS inputText).take 77 ++ ('.' :: '.' :: '.' :: []) ∧
      (queuedPreview inputText).length = 80) ∧
    ((normalizeWS inputText).length ≤ 80 →
      queuedPreview inputText = normalizeWS inputText) := by
  constructor
  · intro h
    have hnot : ¬ ((normalizeWS inputText).length ≤ 80) := by omega
    constructor
    · simp only [queuedPreview]
      rw [if_neg hnot]
    · simp only [queuedPreview]
      rw [if_neg hnot, List.length_append, List.length_take, min_eq_left (by omega)]
      rfl
  · intro h
    simp only [queuedPreview]
    rw [if_pos h]

/-- Witness for C8 at a message of 81 letters. -/
theorem preview_first_77_witness :
    80 < (normalizeWS (List.replicate 81 'a')).length ∧
    (queuedPreview (List.replicate 81 'a') =
      (normalizeWS (List.replicate 81 'a')).take 77 ++ ('.' :: '.' :: '.' :: []) ∧
     (queuedPreview (List.replicate 81 'a')).length = 80) :=
  ⟨by decide, (preview_first_77 (List.replicate 81 'a')).1 (by decide)⟩

end OpencodePrompt
